import Mathlib

/-!
Verification of the tenant-authorization and secrets-protection core
(`server/svix-server/src/core/security.rs`): permission resolution from
bearer-token claims, the three authorization guards, and the envelope
cipher with its no-op mode.

Bytes are modelled as `Nat`, byte strings as `List Nat`.  The external
AEAD library (XChaCha20-Poly1305 from the `chacha20poly1305` crate) is
modelled as an abstract scheme carrying its correctness law; random
nonce generation is modelled by passing the drawn nonce as an argument.
-/

/-- Outcome of a Rust function returning `Result<Vec<u8>, Error>`,
with an explicit case for a Rust panic (e.g. out-of-range slicing):
`err s` models `Err(Error::Generic(s))`. -/
inductive CryptoResult where
  | ok (data : List Nat) : CryptoResult
  | err (msg : String) : CryptoResult
  | panicked : CryptoResult
deriving DecidableEq, Repr

/-- Modelled from the spec: the external XChaCha20-Poly1305 AEAD
(`chacha20poly1305` crate) used by `Encryption`, abstract over its
sealing and opening functions (256-bit key, 24-byte nonce, no
associated data), together with the AEAD round-trip law the library
guarantees: opening a sealed message under the same key and nonce
returns the message. -/
structure AEADScheme where
  sealFn : List Nat → List Nat → List Nat → Option (List Nat)
  openFn : List Nat → List Nat → List Nat → Option (List Nat)
  open_seal : ∀ key nonce msg out, sealFn key nonce msg = some out →
    openFn key nonce out = some msg

/-- `Encryption(Option<Key>)` from the source: a tuple struct holding
an optional 256-bit key. -/
structure Encryption where
  key : Option (List Nat)
deriving DecidableEq, Repr

/-- `Encryption::NONCE_SIZE`. -/
def Encryption.NONCE_SIZE : Nat := 24

/-- `Encryption::new_noop`. -/
def Encryption.new_noop : Encryption := ⟨none⟩

/-- `Encryption::new(key)`. -/
def Encryption.new (key : List Nat) : Encryption := ⟨some key⟩

/-- `Encryption::enabled`: `self.0.is_some()`. -/
def Encryption.enabled (e : Encryption) : Bool := e.key.isSome

/-- `impl Default for Encryption`: `Self::new_noop()`. -/
def Encryption.default : Encryption := Encryption.new_noop

/-- `Encryption::encrypt`: with a key present, seal `data` under the
freshly drawn 24-byte `nonce` and return `nonce || sealed`; a sealing
failure becomes `Error::Generic("Encryption failed")`.  Without a key,
return the input unchanged. -/
def Encryption.encrypt (A : AEADScheme) (e : Encryption) (nonce data : List Nat) :
    CryptoResult :=
  match e.key with
  | some main_key =>
    match A.sealFn main_key nonce data with
    | some sealed => .ok (nonce ++ sealed)
    | none => .err "Encryption failed"
  | none => .ok data

/-- `Encryption::decrypt`: with a key present, the source slices
`&ciphertext[..NONCE_SIZE]` and `&ciphertext[NONCE_SIZE..]`; in Rust the
first slice panics when the input is shorter than `NONCE_SIZE`, which the
embedding records as `.panicked`.  Otherwise the remainder is opened
under the first 24 bytes as nonce, an opening failure becoming
`Error::Generic("Encryption failed")`.  Without a key, return the input
unchanged. -/
def Encryption.decrypt (A : AEADScheme) (e : Encryption) (ciphertext : List Nat) :
    CryptoResult :=
  match e.key with
  | some main_key =>
    if ciphertext.length < Encryption.NONCE_SIZE then .panicked
    else
      match A.openFn main_key (ciphertext.take Encryption.NONCE_SIZE)
          (ciphertext.drop Encryption.NONCE_SIZE) with
      | some msg => .ok msg
      | none => .err "Encryption failed"
  | none => .ok ciphertext

/-- A concrete AEAD instance used to evaluate the embedding on closed
inputs: sealing appends a fixed tag, opening strips and checks it. -/
def plainAEAD : AEADScheme where
  sealFn := fun _ _ msg => some (msg ++ [7])
  openFn := fun _ _ out =>
    if out.getLast? = some 7 then some (out.dropLast) else none
  open_seal := by
    intro key nonce msg out h
    simp only [Option.some.injEq] at h
    subst h
    simp

/-- `OrganizationId` from `core/types.rs`: a newtype over `String`. -/
structure OrganizationId where
  val : String
deriving DecidableEq, Repr

/-- `ApplicationId` from `core/types.rs`: a newtype over `String`. -/
structure ApplicationId where
  val : String
deriving DecidableEq, Repr

/-- `ApplicationIdOrUid` from `core/types.rs`: a path-supplied
application identifier or caller-chosen unique name. -/
structure ApplicationIdOrUid where
  val : String
deriving DecidableEq, Repr

/-- Modelled from the spec: the identifier validator of `core/types.rs`
(not under `src/`): an identifier is valid when it is non-empty,
carries the fixed typed literal at its front, and its encoded payload
is present and of bounded length. -/
def validTypedId (tag : String) (s : String) : Bool :=
  tag.data.isPrefixOf s.data && decide (tag.length < s.length)
    && decide (s.length ≤ tag.length + 27)

/-- `OrganizationId::validate` (modelled from the spec, tag `org_`). -/
def OrganizationId.validate (i : OrganizationId) : Bool :=
  validTypedId "org_" i.val

/-- `ApplicationId::validate` (modelled from the spec, tag `app_`). -/
def ApplicationId.validate (i : ApplicationId) : Bool :=
  validTypedId "app_" i.val

/-- `KeyType` from the source. -/
inductive KeyType where
  | Organization : KeyType
  | Application : KeyType
deriving DecidableEq, Repr

/-- `Permissions` from the source. -/
structure Permissions where
  type_ : KeyType
  org_id : OrganizationId
  app_id : Option ApplicationId
deriving DecidableEq, Repr

/-- `CustomClaim` from the source: the custom claim set, whose only
field is the optional `org` claim. -/
structure CustomClaim where
  organization : Option String
deriving DecidableEq, Repr

/-- The decoded claim set handed back by `jwt_simple`'s
`verify_token::<CustomClaim>`: the standard optional `subject` plus the
custom claims. -/
structure JwtClaims where
  subject : Option String
  custom : CustomClaim
deriving DecidableEq, Repr

/-- The error kinds of `HttpError` used by `core/security.rs`. -/
inductive HttpErrorKind where
  | unauthorized : HttpErrorKind
  | badRequest : HttpErrorKind
  | permissionDenied : HttpErrorKind
  | notFound : HttpErrorKind
  | internalServerError : HttpErrorKind
deriving DecidableEq, Repr

/-- An `HttpError(code, detail)` value as built by the constructors
`HttpError::unauthorized(code, detail)` etc. -/
structure HttpError where
  kind : HttpErrorKind
  code : Option String
  detail : Option String
deriving DecidableEq, Repr

/-- The `bad_token` closure of `Permissions::from_request`. -/
def bad_token (field id_type : String) : HttpError :=
  { kind := .badRequest
    code := some "bad token"
    detail := some ("`" ++ field ++ "` is not a valid " ++ id_type ++ " id") }

/-- `HttpError::unauthorized(None, Some("Invalid token"))`, produced
both for a missing bearer header and for a failed token verification. -/
def invalidTokenError : HttpError :=
  { kind := .unauthorized, code := none, detail := some "Invalid token" }

/-- `HttpError::unauthorized(None, Some("Invalid token (missing `sub`)."))`. -/
def missingSubError : HttpError :=
  { kind := .unauthorized
    code := none
    detail := some "Invalid token (missing \x60sub\x60)." }

/-- The `bad_request` error of the organization branch: note the source
uses code `bad_token` (underscore) and an unbalanced-quote detail. -/
def badOrgSubError : HttpError :=
  { kind := .badRequest
    code := some "bad_token"
    detail := some "\x60sub' is not a valid organization id." }

/-- `HttpError::internal_server_errer(None, None)` via
`to_internal_server_error`. -/
def internalError : HttpError :=
  { kind := .internalServerError, code := none, detail := none }

/-- `HttpError::permission_denied(None, None)`. -/
def permissionDeniedError : HttpError :=
  { kind := .permissionDenied, code := none, detail := none }

/-- `HttpError::not_found(None, None)`. -/
def notFoundError : HttpError :=
  { kind := .notFound, code := none, detail := none }

/-- The claim-to-permission mapping of `Permissions::from_request`
(lines 91-136): branch on the presence of the custom `org` claim, then
validate and assemble the `Permissions` value or fail. -/
def resolvePermissions (claims : JwtClaims) : Except HttpError Permissions :=
  match claims.custom.organization with
  | some org_str =>
    let org_id : OrganizationId := ⟨org_str⟩
    if org_id.validate then
      match claims.subject with
      | some app_str =>
        let app_id : ApplicationId := ⟨app_str⟩
        if app_id.validate then
          .ok { org_id := org_id, app_id := some app_id, type_ := .Application }
        else
          .error (bad_token "sub" "application")
      | none => .error missingSubError
    else
      .error (bad_token "org" "organization")
  | none =>
    match claims.subject with
    | some org_str =>
      let org_id : OrganizationId := ⟨org_str⟩
      if org_id.validate then
        .ok { org_id := org_id, app_id := none, type_ := .Organization }
      else
        .error badOrgSubError
    | none => .error missingSubError

/-- The reasons `jwt_simple`'s `verify_token` can fail, modelled from
the spec: signature, expiry, issuer and claim-decoding checks. -/
inductive VerifyError where
  | badSignature : VerifyError
  | expired : VerifyError
  | badIssuer : VerifyError
  | claimDecode : VerifyError
deriving DecidableEq, Repr

/-- `Permissions::from_request` (lines 68-137): extract the
configuration (failure → internal server error), the bearer header
(absence → `Invalid token`), verify the token (any failure →
`Invalid token`), then resolve the claims.  The configuration
extraction outcome and the verifier are passed as parameters. -/
def permissionsFromRequest (cfgOk : Bool) (bearer : Option String)
    (verify_token : String → Except VerifyError JwtClaims) :
    Except HttpError Permissions :=
  if cfgOk then
    match bearer with
    | none => .error invalidTokenError
    | some tok =>
      match verify_token tok with
      | .error _ => .error invalidTokenError
      | .ok claims => resolvePermissions claims
  else
    .error internalError

/-- The application record (`db::models::application::Model`) as the
guards use it: only its canonical id is consulted. -/
structure ApplicationModel where
  id : ApplicationId
deriving DecidableEq, Repr

/-- Modelled from the spec: the application-lookup collaborator
`application::Entity::secure_find_by_id_or_uid(org_id, app_id).one(db)`
(not under `src/`), abstract: a tenant-scoped lookup returning the
matching record, if any. -/
def FindApp : Type :=
  OrganizationId → ApplicationIdOrUid → Option ApplicationModel

/-- `AuthenticatedOrganization` from the source. -/
structure AuthenticatedOrganization where
  permissions : Permissions
deriving DecidableEq, Repr

/-- `AuthenticatedOrganizationWithApplication` from the source. -/
structure AuthenticatedOrganizationWithApplication where
  permissions : Permissions
  app : ApplicationModel
deriving DecidableEq, Repr

/-- `AuthenticatedApplication` from the source. -/
structure AuthenticatedApplication where
  permissions : Permissions
  app : ApplicationModel
deriving DecidableEq, Repr

/-- `AuthenticatedOrganization::from_request` (lines 151-161), after
`Permissions::from_request` has produced `permissions`: an
`Application`-typed token is rejected with `permission_denied`. -/
def authenticatedOrganization (permissions : Permissions) :
    Except HttpError AuthenticatedOrganization :=
  match permissions.type_ with
  | .Organization => .ok { permissions := permissions }
  | .Application => .error permissionDeniedError

/-- `AuthenticatedOrganizationWithApplication::from_request`
(lines 181-206), after `Permissions::from_request`: the
organization-only check runs first, then the path `app_id` is resolved
scoped to `permissions.org_id`, a miss yielding `not_found`. -/
def authenticatedOrganizationWithApplication (permissions : Permissions)
    (app_id : ApplicationIdOrUid) (find_app : FindApp) :
    Except HttpError AuthenticatedOrganizationWithApplication :=
  match permissions.type_ with
  | .Application => .error permissionDeniedError
  | .Organization =>
    match find_app permissions.org_id app_id with
    | none => .error notFoundError
    | some app => .ok { permissions := permissions, app := app }

/-- `AuthenticatedApplication::from_request` (lines 221-245), after
`Permissions::from_request`: no key-type check is made; the path
`app_id` is resolved scoped to `permissions.org_id` (a miss yielding
`not_found`), and only when the token carries an `app_id` is the
resolved record's id compared against it, a mismatch also yielding
`not_found`. -/
def authenticatedApplication (permissions : Permissions)
    (app_id : ApplicationIdOrUid) (find_app : FindApp) :
    Except HttpError AuthenticatedApplication :=
  match find_app permissions.org_id app_id with
  | none => .error notFoundError
  | some app =>
    match permissions.app_id with
    | some permitted_app_id =>
      if permitted_app_id ≠ app.id then .error notFoundError
      else .ok { permissions := permissions, app := app }
    | none => .ok { permissions := permissions, app := app }

/-!  Theorems  -/

/-- C1: on an enabled cipher, every input shorter than the 24-byte
nonce size makes `decrypt` panic (the out-of-range slice
`&ciphertext[..NONCE_SIZE]`), rather than return the generic
decryption error the specification requires. -/
theorem decrypt_short_input_panics (A : AEADScheme) (key c : List Nat)
    (h : c.length < 24) :
    Encryption.decrypt A (Encryption.new key) c = .panicked := by
  simp only [Encryption.decrypt, Encryption.new, Encryption.NONCE_SIZE]
  rw [if_pos h]

/-- Witness for C1: the empty ciphertext on an enabled cipher. -/
theorem decrypt_short_input_panics_witness :
    ([] : List Nat).length < 24 ∧
      Encryption.decrypt plainAEAD (Encryption.new (List.replicate 32 0)) [] =
        .panicked :=
  ⟨by decide, decrypt_short_input_panics plainAEAD (List.replicate 32 0) [] (by decide)⟩

/-- C7: round-trip identity of the envelope cipher: for every AEAD
scheme satisfying the AEAD law, every 256-bit key, every 24-byte nonce
the encrypt call may draw, and every plaintext, a successful `encrypt`
output decrypts back to exactly the plaintext under the same enabled
cipher. -/
theorem encrypt_decrypt_roundtrip (A : AEADScheme) (key nonce data c : List Nat)
    (_hkey : key.length = 32) (hnonce : nonce.length = 24)
    (henc : Encryption.encrypt A (Encryption.new key) nonce data = .ok c) :
    Encryption.decrypt A (Encryption.new key) c = .ok data := by
  simp only [Encryption.encrypt, Encryption.new] at henc
  cases hseal : A.sealFn key nonce data with
  | none => rw [hseal] at henc; exact absurd henc (by simp)
  | some sealed =>
    rw [hseal] at henc
    simp only [CryptoResult.ok.injEq] at henc
    subst henc
    have hlen : ¬((nonce ++ sealed).length < Encryption.NONCE_SIZE) := by
      simp [Encryption.NONCE_SIZE, List.length_append, hnonce]
    simp only [Encryption.decrypt, Encryption.new, hlen, if_neg hlen]
    have htake : (nonce ++ sealed).take Encryption.NONCE_SIZE = nonce := by
      rw [Encryption.NONCE_SIZE, ← hnonce]
      exact List.take_left nonce sealed
    have hdrop : (nonce ++ sealed).drop Encryption.NONCE_SIZE = sealed := by
      rw [Encryption.NONCE_SIZE, ← hnonce]
      exact List.drop_left nonce sealed
    rw [htake, hdrop, A.open_seal key nonce data sealed hseal]
    simp

/-- Witness for C7: a concrete key, nonce and plaintext on the concrete
AEAD instance. -/
theorem encrypt_decrypt_roundtrip_witness :
    (List.replicate 32 0 : List Nat).length = 32 ∧
      (List.replicate 24 5 : List Nat).length = 24 ∧
      Encryption.decrypt plainAEAD (Encryption.new (List.replicate 32 0))
          (List.replicate 24 5 ++ [1, 2, 3, 7]) = .ok [1, 2, 3] :=
  ⟨by decide, by decide,
    encrypt_decrypt_roundtrip plainAEAD (List.replicate 32 0) (List.replicate 24 5)
      [1, 2, 3] (List.replicate 24 5 ++ [1, 2, 3, 7])
      (by decide) (by decide) (by decide)⟩

/-- C8: with encryption disabled, `encrypt` and `decrypt` are both the
identity: every input (the short ones included) is returned unchanged
and successfully. -/
theorem noop_cipher_identity (A : AEADScheme) (nonce data c : List Nat) :
    Encryption.encrypt A Encryption.new_noop nonce data = .ok data ∧
      Encryption.decrypt A Encryption.new_noop c = .ok c :=
  ⟨rfl, rfl⟩

/-- C9: a successful `encrypt` on an enabled cipher returns
`nonce || sealed_output`: the first 24 bytes are the drawn nonce and
the remainder is exactly the AEAD output for that key, nonce and
plaintext. -/
theorem encrypt_output_format (A : AEADScheme) (key nonce data c : List Nat)
    (hnonce : nonce.length = 24)
    (henc : Encryption.encrypt A (Encryption.new key) nonce data = .ok c) :
    ∃ sealed, A.sealFn key nonce data = some sealed ∧ c = nonce ++ sealed ∧
      c.take 24 = nonce ∧ c.drop 24 = sealed := by
  simp only [Encryption.encrypt, Encryption.new] at henc
  cases hseal : A.sealFn key nonce data with
  | none => rw [hseal] at henc; exact absurd henc (by simp)
  | some sealed =>
    rw [hseal] at henc
    simp only [CryptoResult.ok.injEq] at henc
    subst henc
    refine ⟨sealed, rfl, rfl, ?_, ?_⟩
    · rw [← hnonce]; exact List.take_left nonce sealed
    · rw [← hnonce]; exact List.drop_left nonce sealed

/-- Witness for C9: a concrete encryption on the concrete AEAD
instance. -/
theorem encrypt_output_format_witness :
    (List.replicate 24 5 : List Nat).length = 24 ∧
      ∃ sealed, plainAEAD.sealFn (List.replicate 32 0) (List.replicate 24 5)
            [1, 2, 3] = some sealed ∧
        List.replicate 24 5 ++ [1, 2, 3, 7] = List.replicate 24 5 ++ sealed ∧
        (List.replicate 24 5 ++ [1, 2, 3, 7] : List Nat).take 24 = List.replicate 24 5 ∧
        (List.replicate 24 5 ++ [1, 2, 3, 7] : List Nat).drop 24 = sealed :=
  ⟨by decide,
    encrypt_output_format plainAEAD (List.replicate 32 0) (List.replicate 24 5)
      [1, 2, 3] (List.replicate 24 5 ++ [1, 2, 3, 7]) (by decide) (by decide)⟩

/-- C10: a default-constructed `Encryption` is the disabled no-op
cipher: `default` equals `new_noop`, its `enabled` is `false`, and
`enabled` holds exactly for ciphers built by `new` with a key. -/
theorem default_encryption_is_noop :
    Encryption.default = Encryption.new_noop ∧
      Encryption.enabled Encryption.default = false ∧
      (∀ k, Encryption.enabled (Encryption.new k) = true) ∧
      (∀ e : Encryption, Encryption.enabled e = true ↔ ∃ k, e = Encryption.new k) := by
  refine ⟨rfl, rfl, fun k => rfl, fun e => ?_⟩
  cases e with
  | mk o =>
    cases o with
    | none =>
      simp [Encryption.enabled, Encryption.new]
    | some k =>
      simp only [Encryption.enabled, Encryption.new, Option.isSome_some, true_iff]
      exact ⟨k, rfl⟩

/-- Helper: the claim-to-permission mapping never produces the bare
`Invalid token` error; its own unauthorized errors carry the
`missing sub` detail and its other errors are bad requests. -/
theorem resolvePermissions_ne_invalidToken (claims : JwtClaims) :
    resolvePermissions claims ≠ Except.error invalidTokenError := by
  obtain ⟨subj, ⟨orgopt⟩⟩ := claims
  cases orgopt with
  | some org_str =>
    cases subj with
    | some app_str =>
      by_cases hv : ({ val := org_str } : OrganizationId).validate = true
      · by_cases ha : ({ val := app_str } : ApplicationId).validate = true
        · simp only [resolvePermissions, hv, ha, if_true]
          exact fun h => Except.noConfusion h
        · simp only [resolvePermissions, hv, ha, if_true, if_false, Bool.false_eq_true]
          intro h
          exact absurd (Except.error.inj h) (by decide)
      · simp only [resolvePermissions, hv, if_false, Bool.false_eq_true]
        intro h
        exact absurd (Except.error.inj h) (by decide)
    | none =>
      by_cases hv : ({ val := org_str } : OrganizationId).validate = true
      · simp only [resolvePermissions, hv, if_true]
        intro h
        exact absurd (Except.error.inj h) (by decide)
      · simp only [resolvePermissions, hv, if_false, Bool.false_eq_true]
        intro h
        exact absurd (Except.error.inj h) (by decide)
  | none =>
    cases subj with
    | some sub_str =>
      by_cases hv : ({ val := sub_str } : OrganizationId).validate = true
      · simp only [resolvePermissions, hv, if_true]
        exact fun h => Except.noConfusion h
      · simp only [resolvePermissions, hv, if_false, Bool.false_eq_true]
        intro h
        exact absurd (Except.error.inj h) (by decide)
    | none =>
      simp only [resolvePermissions]
      intro h
      exact absurd (Except.error.inj h) (by decide)

/-- C2: with the configuration extracted and a bearer token present,
the verification step of `Permissions::from_request` fails with
`Unauthorized("Invalid token")` exactly when `verify_token` fails
(badSignature, expired, badIssuer or claimDecode); in particular a
wrong-issuer failure is so rejected, and no other error value arises
from that step. -/
theorem token_verification_error_mapping
    (verify_token : String → Except VerifyError JwtClaims) (tok : String) :
    (permissionsFromRequest true (some tok) verify_token = .error invalidTokenError ↔
      ∃ e, verify_token tok = .error e) ∧
    (verify_token tok = .error .badIssuer →
      permissionsFromRequest true (some tok) verify_token = .error invalidTokenError) := by
  constructor
  · constructor
    · intro h
      simp only [permissionsFromRequest, if_true] at h
      cases hv : verify_token tok with
      | error e => exact ⟨e, rfl⟩
      | ok claims =>
        rw [hv] at h
        exact absurd h (resolvePermissions_ne_invalidToken claims)
    · rintro ⟨e, he⟩
      simp [permissionsFromRequest, he]
  · intro h
    simp [permissionsFromRequest, h]

/-- C3: permission resolution branches on the presence of the
`organization` claim first.  Present: the organization must validate as
an `OrganizationId` (else `BadRequest` naming `org`), the subject must
be present (else `Unauthorized` about the missing `sub`) and validate
as an `ApplicationId` (else `BadRequest` naming `sub`), giving an
`Application`-typed permission with `app_id` populated.  Absent: the
subject must be present (else `Unauthorized`) and validate as an
`OrganizationId` (else `BadRequest`), giving an `Organization`-typed
permission with `app_id` empty. -/
theorem resolvePermissions_branching (claims : JwtClaims) :
    (∀ org_str, claims.custom.organization = some org_str →
      (({ val := org_str } : OrganizationId).validate = false →
        resolvePermissions claims = .error (bad_token "org" "organization")) ∧
      (({ val := org_str } : OrganizationId).validate = true →
        (claims.subject = none →
          resolvePermissions claims = .error missingSubError) ∧
        (∀ app_str, claims.subject = some app_str →
          (({ val := app_str } : ApplicationId).validate = false →
            resolvePermissions claims = .error (bad_token "sub" "application")) ∧
          (({ val := app_str } : ApplicationId).validate = true →
            resolvePermissions claims =
              .ok { type_ := KeyType.Application, org_id := { val := org_str },
                    app_id := some { val := app_str } })))) ∧
    (claims.custom.organization = none →
      (claims.subject = none →
        resolvePermissions claims = .error missingSubError) ∧
      (∀ sub_str, claims.subject = some sub_str →
        (({ val := sub_str } : OrganizationId).validate = false →
          resolvePermissions claims = .error badOrgSubError) ∧
        (({ val := sub_str } : OrganizationId).validate = true →
          resolvePermissions claims =
            .ok { type_ := KeyType.Organization, org_id := { val := sub_str },
                  app_id := none }))) := by
  refine ⟨?_, ?_⟩
  · intro org_str horg
    refine ⟨?_, ?_⟩
    · intro hv
      simp [resolvePermissions, horg, hv]
    · intro hv
      refine ⟨?_, ?_⟩
      · intro hsub
        simp [resolvePermissions, horg, hsub, hv]
      · intro app_str hsub
        refine ⟨?_, ?_⟩
        · intro ha
          simp [resolvePermissions, horg, hsub, hv, ha]
        · intro ha
          simp [resolvePermissions, horg, hsub, hv, ha]
  · intro horg
    refine ⟨?_, ?_⟩
    · intro hsub
      simp [resolvePermissions, horg, hsub]
    · intro sub_str hsub
      refine ⟨?_, ?_⟩
      · intro hv
        simp [resolvePermissions, horg, hsub, hv]
      · intro hv
        simp [resolvePermissions, horg, hsub, hv]

/-- C4: every `Permissions` value produced by permission resolution
satisfies the invariant: `app_id` is populated exactly when the type is
`Application`, and every identifier field it carries has passed
validation before the value exists. -/
theorem resolvePermissions_invariant (claims : JwtClaims) (p : Permissions)
    (h : resolvePermissions claims = .ok p) :
    (p.app_id.isSome = true ↔ p.type_ = KeyType.Application) ∧
      (p.type_ = KeyType.Organization → p.app_id = none) ∧
      (p.type_ = KeyType.Application →
        p.org_id.validate = true ∧ ∃ a, p.app_id = some a ∧ a.validate = true) ∧
      p.org_id.validate = true := by
  obtain ⟨subj, ⟨orgopt⟩⟩ := claims
  cases orgopt with
  | some org_str =>
    cases subj with
    | some app_str =>
      by_cases hv : ({ val := org_str } : OrganizationId).validate = true
      · by_cases ha : ({ val := app_str } : ApplicationId).validate = true
        · simp only [resolvePermissions, hv, ha, if_true] at h
          cases h
          refine ⟨by simp, by simp, fun _ => ⟨hv, ⟨{ val := app_str }, rfl, ha⟩⟩, hv⟩
        · simp only [resolvePermissions, hv, ha, if_true, if_false,
            Bool.false_eq_true] at h
          exact absurd h (by simp)
      · simp only [resolvePermissions, hv, if_false, Bool.false_eq_true] at h
        exact absurd h (by simp)
    | none =>
      by_cases hv : ({ val := org_str } : OrganizationId).validate = true
      · simp only [resolvePermissions, hv, if_true] at h
        exact absurd h (by simp)
      · simp only [resolvePermissions, hv, if_false, Bool.false_eq_true] at h
        exact absurd h (by simp)
  | none =>
    cases subj with
    | some sub_str =>
      by_cases hv : ({ val := sub_str } : OrganizationId).validate = true
      · simp only [resolvePermissions, hv, if_true] at h
        cases h
        exact ⟨by simp, fun _ => rfl, by simp, hv⟩
      · simp only [resolvePermissions, hv, if_false, Bool.false_eq_true] at h
        exact absurd h (by simp)
    | none =>
      simp only [resolvePermissions] at h
      exact absurd h (by simp)

/-- Witness for C4: an application token with a valid `org` claim and a
valid `sub` claim. -/
theorem resolvePermissions_invariant_witness :
    resolvePermissions { subject := some "app_x", custom := ⟨some "org_y"⟩ } =
        .ok { type_ := KeyType.Application, org_id := { val := "org_y" },
              app_id := some { val := "app_x" } } ∧
      ((some { val := "app_x" } : Option ApplicationId).isSome = true ↔
        KeyType.Application = KeyType.Application) :=
  ⟨rfl,
    (resolvePermissions_invariant { subject := some "app_x", custom := ⟨some "org_y"⟩ }
      { type_ := KeyType.Application, org_id := { val := "org_y" },
        app_id := some { val := "app_x" } } rfl).1⟩

/-- C5: the `ApplicationScoped` guard accepts both key types (it never
produces `PermissionDenied`); after a successful tenant-scoped lookup
it compares the resolved application's id against the token's `app_id`
only when the token was application-scoped, a mismatch yielding
`NotFound`; an organization-scoped token skips the comparison. -/
theorem authenticatedApplication_guard (p : Permissions)
    (app_id : ApplicationIdOrUid) (find_app : FindApp) :
    (∀ e, authenticatedApplication p app_id find_app = .error e →
      e.kind ≠ HttpErrorKind.permissionDenied) ∧
    (find_app p.org_id app_id = none →
      authenticatedApplication p app_id find_app = .error notFoundError) ∧
    (∀ app, find_app p.org_id app_id = some app →
      (p.app_id = none →
        authenticatedApplication p app_id find_app = .ok ⟨p, app⟩) ∧
      (∀ permitted, p.app_id = some permitted →
        (permitted ≠ app.id →
          authenticatedApplication p app_id find_app = .error notFoundError) ∧
        (permitted = app.id →
          authenticatedApplication p app_id find_app = .ok ⟨p, app⟩))) := by
  refine ⟨?_, ?_, ?_⟩
  · intro e he
    cases hf : find_app p.org_id app_id with
    | none =>
      simp only [authenticatedApplication, hf] at he
      obtain rfl := Except.error.inj he
      decide
    | some app =>
      cases hp : p.app_id with
      | none =>
        simp only [authenticatedApplication, hf, hp] at he
        exact Except.noConfusion he
      | some permitted =>
        simp only [authenticatedApplication, hf, hp] at he
        by_cases hne : permitted ≠ app.id
        · rw [if_pos hne] at he
          obtain rfl := Except.error.inj he
          decide
        · rw [if_neg hne] at he
          exact Except.noConfusion he
  · intro hf
    simp [authenticatedApplication, hf]
  · intro app hf
    refine ⟨?_, ?_⟩
    · intro hp
      simp [authenticatedApplication, hf, hp]
    · intro permitted hp
      refine ⟨?_, ?_⟩
      · intro hne
        simp [authenticatedApplication, hf, hp, hne]
      · intro heq
        simp [authenticatedApplication, hf, hp, heq]

/-- C6: the `OrganizationOnly` guard rejects every `Application`-typed
permission with `PermissionDenied` and passes every
`Organization`-typed permission through unmodified; the
`OrganizationWithApplication` guard applies the same requirement before
the lookup, and a lookup miss yields `NotFound`. -/
theorem organizationOnly_guards (p : Permissions) (app_id : ApplicationIdOrUid)
    (find_app : FindApp) :
    (p.type_ = KeyType.Application →
      authenticatedOrganization p = .error permissionDeniedError ∧
      authenticatedOrganizationWithApplication p app_id find_app =
        .error permissionDeniedError) ∧
    (p.type_ = KeyType.Organization →
      authenticatedOrganization p = .ok ⟨p⟩ ∧
      (find_app p.org_id app_id = none →
        authenticatedOrganizationWithApplication p app_id find_app =
          .error notFoundError) ∧
      (∀ app, find_app p.org_id app_id = some app →
        authenticatedOrganizationWithApplication p app_id find_app =
          .ok ⟨p, app⟩)) := by
  refine ⟨?_, ?_⟩
  · intro ht
    constructor
    · simp [authenticatedOrganization, ht]
    · simp [authenticatedOrganizationWithApplication, ht]
  · intro ht
    refine ⟨?_, ?_, ?_⟩
    · simp [authenticatedOrganization, ht]
    · intro hf
      simp [authenticatedOrganizationWithApplication, ht, hf]
    · intro app hf
      simp [authenticatedOrganizationWithApplication, ht, hf]

/-- Witness for C2: a verifier failing on the issuer check maps to the
`Invalid token` unauthorized error. -/
theorem token_verification_error_mapping_witness :
    permissionsFromRequest true (some "tok")
        (fun _ => Except.error VerifyError.badIssuer) =
      .error invalidTokenError :=
  (token_verification_error_mapping (fun _ => Except.error VerifyError.badIssuer)
    "tok").2 rfl

/-- Witness for C3: an application token with valid `org` and `sub`
claims resolves to an application-scoped permission. -/
theorem resolvePermissions_branching_witness :
    resolvePermissions { subject := some "app_ab", custom := ⟨some "org_cd"⟩ } =
      .ok { type_ := KeyType.Application, org_id := { val := "org_cd" },
            app_id := some { val := "app_ab" } } :=
  ((((resolvePermissions_branching
      { subject := some "app_ab", custom := ⟨some "org_cd"⟩ }).1 "org_cd" rfl).2
      rfl).2 "app_ab" rfl).2 rfl

/-- Witness for C5: an application-scoped token naming a different
application than the one the lookup resolves gets `NotFound`. -/
theorem authenticatedApplication_guard_witness :
    authenticatedApplication
        { type_ := KeyType.Application, org_id := { val := "org_cd" },
          app_id := some { val := "app_ab" } }
        { val := "app_zz" } (fun _ _ => some { id := { val := "app_zz" } }) =
      .error notFoundError :=
  (((authenticatedApplication_guard
      { type_ := KeyType.Application, org_id := { val := "org_cd" },
        app_id := some { val := "app_ab" } }
      { val := "app_zz" }
      (fun _ _ => some { id := { val := "app_zz" } })).2.2
    { id := { val := "app_zz" } } rfl).2 { val := "app_ab" } rfl).1 (by decide)

/-- Witness for C6: an organization token passes `OrganizationOnly`
unmodified, and an empty lookup makes the with-application guard fail
with `NotFound`. -/
theorem organizationOnly_guards_witness :
    authenticatedOrganization
        { type_ := KeyType.Organization, org_id := { val := "org_cd" },
          app_id := none } =
      .ok { permissions := { type_ := KeyType.Organization,
                             org_id := { val := "org_cd" }, app_id := none } } ∧
      authenticatedOrganizationWithApplication
        { type_ := KeyType.Organization, org_id := { val := "org_cd" },
          app_id := none }
        { val := "app_ab" } (fun _ _ => none) = .error notFoundError :=
  ⟨((organizationOnly_guards
      { type_ := KeyType.Organization, org_id := { val := "org_cd" },
        app_id := none }
      { val := "app_ab" } (fun _ _ => none)).2 rfl).1,
    ((organizationOnly_guards
      { type_ := KeyType.Organization, org_id := { val := "org_cd" },
        app_id := none }
      { val := "app_ab" } (fun _ _ => none)).2 rfl).2.1 rfl⟩

/-- Witness for C8: concrete inputs on the disabled cipher. -/
theorem noop_cipher_identity_witness :
    Encryption.encrypt plainAEAD Encryption.new_noop (List.replicate 24 5) [1, 2] =
        .ok [1, 2] ∧
      Encryption.decrypt plainAEAD Encryption.new_noop [9] = .ok [9] :=
  ⟨(noop_cipher_identity plainAEAD (List.replicate 24 5) [1, 2] [9]).1,
    (noop_cipher_identity plainAEAD (List.replicate 24 5) [1, 2] [9]).2⟩

/-- Witness for C10: the default cipher is disabled and a keyed cipher
is enabled. -/
theorem default_encryption_is_noop_witness :
    Encryption.enabled Encryption.default = false ∧
      Encryption.enabled (Encryption.new (List.replicate 32 0)) = true :=
  ⟨default_encryption_is_noop.2.1,
    default_encryption_is_noop.2.2.1 (List.replicate 32 0)⟩
